import Mathlib

/-!
Formal model of the `mytimesync` synchronizer (`src/main.rs`).

The program synchronizes an external clock peripheral over a serial port:
it resolves a CH340 USB-serial device from WMI captions (`get_serial`),
picks the next whole-second boundary more than 100 microseconds in the
future (the selection loop in `inner_main`, built on `time_trunc_second`),
encodes the target's time of day into a 6-byte frame
(`construct_data_buf`), writes the frame, sleeps until the boundary, and
writes a single commit byte `'c'`.

`chrono::DateTime<Local>` is modelled as an `Int` counting microseconds on
the local timeline (chrono has microsecond-or-finer resolution and no leap
seconds, and local-timezone offsets are whole seconds, so truncating the
local calendar fields to a whole second is exactly flooring this counter
to a multiple of 1000000).  The fallible `Local.with_ymd_and_hms`
construction is modelled by a predicate `clkOk` saying which whole-second
instants the runtime accepts; `.unwrap()` panics and `?`-propagated errors
are both modelled as error outcomes of the run.  The serial transport and
the thread sleep are modelled by an event trace of the successful
operations, with the outcomes of the external calls supplied by an
environment `Env`.
-/

namespace MyTimeSync

/-- Errors of a run, one per fatal condition of `main.rs` (§7 of the design):
no matching device, serial open failure, serial write failure, the negative
`sleep_duration` check, the `.unwrap()` panic in `time_trunc_second`, and the
(dead) `to_std` range error. -/
inductive RunError
  | deviceNotFound
  | transportOpenFailed
  | transportWriteFailed
  | deadlineMissed
  | clockConversionFailed
  | durationOutOfRange
  deriving Repr, DecidableEq

/-! ## Time model: `DateTime<Local>` as microseconds on the local timeline -/

/-- Sub-second component of a time point, in microseconds (`t.nanosecond()`
up to scale): the residue of the microsecond counter modulo one second. -/
def microOf (t : Int) : Int := t % 1000000

/-- Seconds elapsed since local midnight, in `[0, 86400)`. -/
def secOfDay (t : Int) : Nat := (t % 86400000000 / 1000000).toNat

/-- Local hour of day, as `chrono`'s `Timelike::hour`. -/
def hourOf (t : Int) : Nat := secOfDay t / 3600

/-- Local minute, as `chrono`'s `Timelike::minute`. -/
def minuteOf (t : Int) : Nat := secOfDay t / 60 % 60

/-- Local second, as `chrono`'s `Timelike::second`. -/
def secondOf (t : Int) : Nat := secOfDay t % 60

/-- Index of the local calendar day containing `t` (days since the epoch of
the microsecond counter). -/
def dayIndexOf (t : Int) : Int := t / 86400000000

/-- Proleptic-Gregorian civil date `(year, month, day)` of a day index
(standard civil-from-days conversion, epoch 1970-01-01 = day 0), modelling
`chrono`'s `Datelike::year/month/day` on the local timeline. -/
def civilFromDays (z0 : Int) : Int × Int × Int :=
  let z := z0 + 719468
  let era := z / 146097
  let doe := z % 146097
  let yoe := (doe - doe / 1460 + doe / 36524 - doe / 146096) / 365
  let y := yoe + era * 400
  let doy := doe - (365 * yoe + yoe / 4 - yoe / 100)
  let mp := (5 * doy + 2) / 153
  let d := doy - (153 * mp + 2) / 5 + 1
  let m := if mp < 10 then mp + 3 else mp - 9
  (if m ≤ 2 then y + 1 else y, m, d)

/-- Local calendar year of a time point. -/
def yearOf (t : Int) : Int := (civilFromDays (dayIndexOf t)).1

/-- Local calendar month of a time point. -/
def monthOf (t : Int) : Int := (civilFromDays (dayIndexOf t)).2.1

/-- Local calendar day of month of a time point. -/
def dayOf (t : Int) : Int := (civilFromDays (dayIndexOf t)).2.2

/-- Model of `time_trunc_second` in `main.rs`: rebuild the time point from
its own `year/month/day/hour/minute/second` fields via
`Local.with_ymd_and_hms`, i.e. floor the microsecond counter to a whole
second.  `chrono` may reject the construction (`LocalResult::None` or
`::Ambiguous` around DST transitions), upon which the Rust code's
`.unwrap()` panics; `clkOk` tells which whole-second instants the runtime
accepts, and `none` models the panic. -/
def time_trunc_second (clkOk : Int → Bool) (t : Int) : Option Int :=
  if clkOk (t - t % 1000000) then some (t - t % 1000000) else none

/-! ## Frame encoder -/

/-- Model of `construct_data_buf` in `main.rs`: the 6-byte wire frame for a
time of day.  Bytes are `Nat`s below 256; the `as u8` casts are the
`% 256` reductions. -/
def construct_data_buf (hour minute second : Nat) : List Nat :=
  let seconds := ((hour * 60) + minute) * 60 + second
  [0x53, 0x62,
   (((seconds >>> 21) &&& 0x7f) ||| 0x80) % 256,
   (((seconds >>> 14) &&& 0x7f) ||| 0x80) % 256,
   (((seconds >>> 7) &&& 0x7f) ||| 0x80) % 256,
   ((seconds &&& 0x7f) ||| 0x80) % 256]

/-- Modelled from the spec (§8 Encoding correctness): the decoding procedure
for bytes 2–5 of a frame — mask each byte with `0x7F` and reassemble the
four 7-bit groups big-endian-most-significant-first.  The repository has no
decoder; this is the spec's inverse used to state the round-trip claim. -/
def decode_groups (buf : List Nat) : Nat :=
  (buf.getD 2 0 &&& 0x7f) * 2 ^ 21 + (buf.getD 3 0 &&& 0x7f) * 2 ^ 14
    + (buf.getD 4 0 &&& 0x7f) * 2 ^ 7 + (buf.getD 5 0 &&& 0x7f)

/-! ## Device resolution (`get_serial`) -/

/-- Characters of the literal part of the pattern
`USB-SERIAL CH340 \((COM\d+)\)` up to the digits of the capture group. -/
def portPattern : List Char := ("USB-SERIAL CH340 (COM").data

/-- Attempt to match the pattern `USB-SERIAL CH340 \((COM\d+)\)` at the head
of `l`; on success return the first capture group (`COM` followed by the
digits). -/
def matchPortAt (l : List Char) : Option String :=
  if portPattern.isPrefixOf l then
    let rest := l.drop portPattern.length
    let ds := rest.takeWhile Char.isDigit
    if ds.length > 0 ∧ (rest.drop ds.length).head? = some ')' then
      some (String.mk ('C' :: 'O' :: 'M' :: ds))
    else none
  else none

/-- Leftmost match of the port pattern in a character list: try each
position from the left, as `Regex::captures` does. -/
def findPort : List Char → Option String
  | [] => none
  | c :: rest =>
    match matchPortAt (c :: rest) with
    | some p => some p
    | none => findPort rest

/-- Port number extracted from one device caption, when the caption matches
`REGEX_SERIAL_PORT`. -/
def extract_port (caption : String) : Option String := findPort caption.data

/-- Model of `get_serial` in `main.rs`: filter the WMI captions through the
port pattern; fail when no caption matches, otherwise return the first
match (further matches are only logged as a warning). -/
def get_serial (captions : List String) : Except RunError String :=
  match captions.filterMap extract_port with
  | [] => .error .deviceNotFound
  | p :: _ => .ok p

/-! ## Sync scheduler -/

/-- Model of the boundary-selection `loop` of `inner_main`: starting from
`next`, repeatedly advance by one second (`Duration::seconds(1)`), truncate
to a whole second with `time_trunc_second`, and stop as soon as the
distance from `now` exceeds 100 microseconds, returning the chosen
`next_sync_time` together with that distance.  `none` models the
`.unwrap()` panic when the local-time construction fails. -/
def syncLoop (clkOk : Int → Bool) (now next : Int) : Option (Int × Int) :=
  match h : time_trunc_second clkOk (next + 1000000) with
  | none => none
  | some next_sync_time =>
    if next_sync_time - now > 100 then some (next_sync_time, next_sync_time - now)
    else syncLoop clkOk now (next + 1000000)
termination_by (now + 2000000 - next).toNat
decreasing_by
  simp only [time_trunc_second] at h
  split at h
  · simp only [Option.some.injEq] at h
    subst h
    simp only [not_lt] at *
    omega
  · exact absurd h (by simp)

/-- Model of `chrono::Duration::to_std`: converts a duration in microseconds
to an unsigned one, failing on negative input (`OutOfRangeError`). -/
def duration_to_std (d : Int) : Except RunError Nat :=
  if d < 0 then .error .durationOutOfRange else .ok d.toNat

/-- Observable operations of a run, in order: bytes accepted by the serial
transport, and the blocking sleep with its duration in microseconds. -/
inductive Event
  | write (bytes : List Nat)
  | sleep (micros : Nat)
  deriving Repr, DecidableEq

/-- Environment of one run: the outcomes of the external calls that
`inner_main` makes, in program order — the WMI captions, whether the serial
open succeeds, the first clock sample `now`, which whole-second instants
the local-time construction accepts, whether the frame write succeeds, the
clock sample taken after the frame write, and whether the commit-byte
write succeeds. -/
structure Env where
  captions : List String
  openOk : Bool
  now : Int
  clkOk : Int → Bool
  writeFrameOk : Bool
  now2 : Int
  writeCommitOk : Bool

/-- Model of `inner_main` in `main.rs`: resolve the port, open the serial
device, select the sync target, write the frame, re-sample the clock,
abort if the remaining time is negative, sleep, and write the commit byte
`'c'` (0x63).  Returns the run's outcome (`Ok` carries the achieved
target) paired with the trace of transport writes and sleeps that
happened. -/
def inner_main (env : Env) : Except RunError Int × List Event :=
  match get_serial env.captions with
  | .error e => (.error e, [])
  | .ok _serial_port_num =>
    if env.openOk then
      match syncLoop env.clkOk env.now env.now with
      | none => (.error .clockConversionFailed, [])
      | some (next_sync_time, _dist) =>
        let buf := construct_data_buf (hourOf next_sync_time) (minuteOf next_sync_time)
          (secondOf next_sync_time)
        if env.writeFrameOk then
          let sleep_duration := next_sync_time - env.now2
          if sleep_duration < 0 then
            (.error .deadlineMissed, [.write buf])
          else
            match duration_to_std sleep_duration with
            | .error e => (.error e, [.write buf])
            | .ok d =>
              if env.writeCommitOk then
                (.ok next_sync_time, [.write buf, .sleep d, .write [0x63]])
              else (.error .transportWriteFailed, [.write buf, .sleep d])
        else (.error .transportWriteFailed, [])
    else (.error .transportOpenFailed, [])

/-! ## Helper lemmas -/

lemma and_127_eq_mod (x : Nat) : x &&& 127 = x % 128 := by
  have h := Nat.and_pow_two_sub_one_eq_mod x 7
  norm_num at h
  exact h

lemma or_128_eq_add : ∀ a < 128, a ||| 128 = a + 128 := by decide

lemma testBit_7_add_128 : ∀ a < 128, Nat.testBit (a + 128) 7 = true := by decide

lemma byte_mod_256 (x : Nat) : ((x &&& 127) ||| 128) % 256 = x % 128 + 128 := by
  rw [and_127_eq_mod, or_128_eq_add (x % 128) (Nat.mod_lt x (by norm_num))]
  omega

lemma byte_unmask (x : Nat) : (x % 128 + 128) &&& 127 = x % 128 := by
  rw [and_127_eq_mod]
  omega

lemma seven_bit_roundtrip (T : Nat) (hT : T < 86400) :
    T / 2 ^ 21 % 128 * 2 ^ 21 + T / 2 ^ 14 % 128 * 2 ^ 14 + T / 2 ^ 7 % 128 * 2 ^ 7
        + T % 128 = T := by
  omega

/-- Closed form of the boundary-selection loop when the local-time
construction always succeeds: it returns the first whole-second boundary
strictly after `now` when that one is more than 100 microseconds away,
and otherwise the boundary one second later. -/
lemma syncLoop_spec (clkOk : Int → Bool) (hclk : ∀ x, clkOk x = true) (now : Int) :
    syncLoop clkOk now now =
      if now % 1000000 < 999900
      then some (now - now % 1000000 + 1000000, now - now % 1000000 + 1000000 - now)
      else some (now - now % 1000000 + 2000000, now - now % 1000000 + 2000000 - now) := by
  have e1 : time_trunc_second clkOk (now + 1000000)
      = some (now - now % 1000000 + 1000000) := by
    simp only [time_trunc_second, hclk, if_true, Option.some.injEq]
    omega
  have e2 : time_trunc_second clkOk (now + 1000000 + 1000000)
      = some (now - now % 1000000 + 2000000) := by
    simp only [time_trunc_second, hclk, if_true, Option.some.injEq]
    omega
  rw [syncLoop, e1]
  simp only
  split
  · rename_i hcond
    rw [if_pos (by omega)]
  · rename_i hcond
    rw [if_neg (by omega)]
    rw [syncLoop, e2]
    simp only
    rw [if_pos (by omega)]

/-! ## Claims -/

/-- C3: for every valid time-of-day, decoding bytes 2–5 of the encoded
frame — masking each with 0x7F and reassembling the four 7-bit groups in
big-endian-most-significant-first order — yields back
`total_seconds = ((hour * 60) + minute) * 60 + second`, and every one of
bytes 2–5 has bit 7 set. -/
theorem c3_encoding_roundtrip (hour minute second : Nat)
    (hh : hour < 24) (hm : minute < 60) (hs : second < 60) :
    decode_groups (construct_data_buf hour minute second)
        = ((hour * 60) + minute) * 60 + second ∧
      Nat.testBit ((construct_data_buf hour minute second).getD 2 0) 7 = true ∧
      Nat.testBit ((construct_data_buf hour minute second).getD 3 0) 7 = true ∧
      Nat.testBit ((construct_data_buf hour minute second).getD 4 0) 7 = true ∧
      Nat.testBit ((construct_data_buf hour minute second).getD 5 0) 7 = true := by
  simp only [construct_data_buf, decode_groups, List.getD_cons_zero, List.getD_cons_succ,
    byte_mod_256, byte_unmask, Nat.shiftRight_eq_div_pow]
  refine ⟨seven_bit_roundtrip _ (by omega), ?_, ?_, ?_, ?_⟩ <;>
    exact testBit_7_add_128 _ (Nat.mod_lt _ (by norm_num))

/-- C3 witness: the round trip and the high bits at the concrete
time-of-day 07:04:05. -/
theorem c3_encoding_roundtrip_witness :
    decode_groups (construct_data_buf 7 4 5) = ((7 * 60) + 4) * 60 + 5 ∧
      Nat.testBit ((construct_data_buf 7 4 5).getD 2 0) 7 = true ∧
      Nat.testBit ((construct_data_buf 7 4 5).getD 3 0) 7 = true ∧
      Nat.testBit ((construct_data_buf 7 4 5).getD 4 0) 7 = true ∧
      Nat.testBit ((construct_data_buf 7 4 5).getD 5 0) 7 = true :=
  c3_encoding_roundtrip 7 4 5 (by decide) (by decide) (by decide)

/-- C4: for every valid time-of-day the encoder produces exactly the six
bytes `'S'`, `'b'`, and the four 7-bit groups of `total_seconds` from most
significant to least, each masked with 0x7F and with 0x80 set. -/
theorem c4_frame_layout (hour minute second : Nat)
    (hh : hour < 24) (hm : minute < 60) (hs : second < 60) :
    construct_data_buf hour minute second =
      [0x53, 0x62,
       (((((hour * 60) + minute) * 60 + second) >>> 21) &&& 0x7f) ||| 0x80,
       (((((hour * 60) + minute) * 60 + second) >>> 14) &&& 0x7f) ||| 0x80,
       (((((hour * 60) + minute) * 60 + second) >>> 7) &&& 0x7f) ||| 0x80,
       ((((hour * 60) + minute) * 60 + second) &&& 0x7f) ||| 0x80] := by
  have hmod : ∀ x : Nat, ((x &&& 127) ||| 128) % 256 = (x &&& 127) ||| 128 := by
    intro x
    rw [byte_mod_256, and_127_eq_mod, or_128_eq_add (x % 128) (Nat.mod_lt x (by norm_num))]
  simp only [construct_data_buf, hmod]

/-- C4 witness: at 00:00:00 (`total_seconds = 0`) the layout theorem applies
and gives the frame `53 62 80 80 80 80`. -/
theorem c4_frame_layout_witness :
    construct_data_buf 0 0 0 =
      [0x53, 0x62,
       (((((0 * 60) + 0) * 60 + 0) >>> 21) &&& 0x7f) ||| 0x80,
       (((((0 * 60) + 0) * 60 + 0) >>> 14) &&& 0x7f) ||| 0x80,
       (((((0 * 60) + 0) * 60 + 0) >>> 7) &&& 0x7f) ||| 0x80,
       ((((0 * 60) + 0) * 60 + 0) &&& 0x7f) ||| 0x80] ∧
      construct_data_buf 0 0 0 = [0x53, 0x62, 0x80, 0x80, 0x80, 0x80] :=
  ⟨c4_frame_layout 0 0 0 (by decide) (by decide) (by decide), by decide⟩

/-- C5 counterexample: the claimed lowest 7-bit group of 45000 is wrong —
`45000 &&& 0x7F` is 72, not 24 — so byte 5 is 0xC8, not 0x98, and the
encoder's frame at 12:30:00 is not `53 62 80 82 DF 98`. -/
theorem c5_concrete_45000_counterexample :
    45000 &&& 0x7f ≠ 24 ∧
      construct_data_buf 12 30 0 ≠ [0x53, 0x62, 0x80, 0x82, 0xDF, 0x98] := by
  decide

/-- C5 (amended): the encoder at 12:30:00 (`total_seconds = 45000`)
produces payload groups 0, 2, 95, 72 from high to low 7-bit group,
i.e. bytes 0x80, 0x82, 0xDF, 0xC8, giving the frame `53 62 80 82 DF C8`. -/
theorem c5_concrete_45000 :
    ((12 * 60) + 30) * 60 + 0 = 45000 ∧
      (45000 >>> 21) &&& 0x7f = 0 ∧ (45000 >>> 14) &&& 0x7f = 2 ∧
      (45000 >>> 7) &&& 0x7f = 95 ∧ 45000 &&& 0x7f = 72 ∧
      construct_data_buf 12 30 0 = [0x53, 0x62, 0x80, 0x82, 0xDF, 0xC8] := by
  decide

/-- C7: whenever second-boundary truncation succeeds, the result has a zero
sub-second component and the same year, month, day, hour, minute, and
second as the input. -/
theorem c7_trunc_preserves_fields (clkOk : Int → Bool) (t r : Int)
    (h : time_trunc_second clkOk t = some r) :
    microOf r = 0 ∧ yearOf r = yearOf t ∧ monthOf r = monthOf t ∧ dayOf r = dayOf t ∧
      hourOf r = hourOf t ∧ minuteOf r = minuteOf t ∧ secondOf r = secondOf t := by
  have hr : r = t - t % 1000000 := by
    simp only [time_trunc_second] at h
    split at h
    · exact (Option.some.injEq _ _).mp h |>.symm
    · exact absurd h (by simp)
  subst hr
  have hday : dayIndexOf (t - t % 1000000) = dayIndexOf t := by
    unfold dayIndexOf
    omega
  have hsec : secOfDay (t - t % 1000000) = secOfDay t := by
    unfold secOfDay
    omega
  refine ⟨by unfold microOf; omega, ?_, ?_, ?_, ?_, ?_, ?_⟩
  · unfold yearOf
    rw [hday]
  · unfold monthOf
    rw [hday]
  · unfold dayOf
    rw [hday]
  · unfold hourOf
    rw [hsec]
  · unfold minuteOf
    rw [hsec]
  · unfold secondOf
    rw [hsec]

/-- C7 witness: truncating the time point 1.5 seconds after the epoch
yields the 1-second point, with all calendar fields preserved. -/
theorem c7_trunc_preserves_fields_witness :
    microOf (1000000 : Int) = 0 ∧ yearOf 1000000 = yearOf 1500000 ∧
      monthOf 1000000 = monthOf 1500000 ∧ dayOf 1000000 = dayOf 1500000 ∧
      hourOf 1000000 = hourOf 1500000 ∧ minuteOf 1000000 = minuteOf 1500000 ∧
      secondOf 1000000 = secondOf 1500000 :=
  c7_trunc_preserves_fields (fun _ => true) 1500000 1000000 (by decide)

/-- C1: whenever the boundary-selection loop returns, the chosen target is
a whole-second boundary more than 100 microseconds after the starting
`now`; in particular, when the first boundary strictly after `now` is at
most 100 microseconds away, the boundary one second later is chosen. -/
theorem c1_lead_time_invariant (clkOk : Int → Bool) (hclk : ∀ x, clkOk x = true)
    (now tgt dist : Int) (h : syncLoop clkOk now now = some (tgt, dist)) :
    dist = tgt - now ∧ 100 < tgt - now ∧ tgt % 1000000 = 0 ∧
      (now - now % 1000000 + 1000000 - now ≤ 100 →
        tgt = now - now % 1000000 + 2000000) := by
  rw [syncLoop_spec clkOk hclk now] at h
  by_cases hc : now % 1000000 < 999900
  · rw [if_pos hc] at h
    simp only [Option.some.injEq, Prod.mk.injEq] at h
    obtain ⟨h1, h2⟩ := h
    subst h1
    subst h2
    refine ⟨rfl, by omega, by omega, by omega⟩
  · rw [if_neg hc] at h
    simp only [Option.some.injEq, Prod.mk.injEq] at h
    obtain ⟨h1, h2⟩ := h
    subst h1
    subst h2
    refine ⟨rfl, by omega, by omega, by omega⟩

/-- C1 witness: from 23:59:59.999950 on the epoch day (50 microseconds
before midnight) the loop picks 00:00:01 of the next day, not 00:00:00. -/
theorem c1_lead_time_invariant_witness :
    (1000050 : Int) = 86401000000 - 86399999950 ∧
      (100 : Int) < 86401000000 - 86399999950 ∧
      (86401000000 : Int) % 1000000 = 0 ∧
      ((86399999950 : Int) - 86399999950 % 1000000 + 1000000 - 86399999950 ≤ 100 →
        (86401000000 : Int) = 86399999950 - 86399999950 % 1000000 + 2000000) :=
  c1_lead_time_invariant (fun _ => true) (fun _ => rfl) 86399999950 86401000000 1000050
    (by
      have h := syncLoop_spec (fun _ => true) (fun _ => rfl) 86399999950
      norm_num at h
      exact h)

/-- C10: for every starting `now` the boundary-selection loop terminates
with a result (when the local-time construction succeeds), and the chosen
target is the first or the second whole-second boundary strictly after
`now` — never more than two seconds ahead. -/
theorem c10_loop_two_iterations (clkOk : Int → Bool) (hclk : ∀ x, clkOk x = true)
    (now : Int) :
    ∃ tgt dist, syncLoop clkOk now now = some (tgt, dist) ∧ tgt % 1000000 = 0 ∧
      (tgt = now - now % 1000000 + 1000000 ∨ tgt = now - now % 1000000 + 2000000) ∧
      now < tgt ∧ tgt ≤ now + 2000000 := by
  rw [syncLoop_spec clkOk hclk now]
  by_cases hc : now % 1000000 < 999900
  · rw [if_pos hc]
    exact ⟨_, _, rfl, by omega, Or.inl rfl, by omega, by omega⟩
  · rw [if_neg hc]
    exact ⟨_, _, rfl, by omega, Or.inr rfl, by omega, by omega⟩

/-- C10 witness: starting at the epoch instant the loop returns a target
within the stated bounds. -/
theorem c10_loop_two_iterations_witness :
    ∃ tgt dist, syncLoop (fun _ => true) 0 0 = some (tgt, dist) ∧ tgt % 1000000 = 0 ∧
      (tgt = (0 : Int) - 0 % 1000000 + 1000000 ∨ tgt = (0 : Int) - 0 % 1000000 + 2000000) ∧
      (0 : Int) < tgt ∧ tgt ≤ (0 : Int) + 2000000 :=
  c10_loop_two_iterations (fun _ => true) (fun _ => rfl) 0

/-- C2: when the run reaches the post-write clock re-sample and the
remaining time to the target is negative, `inner_main` aborts with the
deadline-missed error having written only the frame — the commit byte is
never written. -/
theorem c2_deadline_missed (env : Env) (port : String) (tgt dist : Int)
    (hs : get_serial env.captions = .ok port) (ho : env.openOk = true)
    (hl : syncLoop env.clkOk env.now env.now = some (tgt, dist))
    (hw : env.writeFrameOk = true) (hneg : tgt - env.now2 < 0) :
    inner_main env =
      (.error .deadlineMissed,
       [.write (construct_data_buf (hourOf tgt) (minuteOf tgt) (secondOf tgt))]) := by
  simp only [inner_main, hs, ho, hl, hw, if_true]
  rw [if_pos hneg]

/-- C2 witness: a run whose re-sampled clock is already one second past
the chosen target aborts after only the frame write. -/
theorem c2_deadline_missed_witness :
    inner_main ⟨[("USB-SERIAL CH340 (COM3)")], true, 0, fun _ => true, true, 2000000, true⟩ =
      (.error .deadlineMissed,
       [.write (construct_data_buf (hourOf 1000000) (minuteOf 1000000) (secondOf 1000000))]) :=
  c2_deadline_missed ⟨[("USB-SERIAL CH340 (COM3)")], true, 0, fun _ => true, true, 2000000, true⟩
    ("COM3") 1000000 1000000 rfl rfl
    (by
      have h := syncLoop_spec (fun _ => true) (fun _ => rfl) 0
      norm_num at h
      exact h)
    rfl (by decide)

/-- C6: every successful run performs exactly two transport writes — the
frame and then the single commit byte 0x63 — with exactly one sleep placed
between them. -/
theorem c6_trace_shape (env : Env) (t : Int) (tr : List Event)
    (h : inner_main env = (.ok t, tr)) :
    tr = [.write (construct_data_buf (hourOf t) (minuteOf t) (secondOf t)),
          .sleep (t - env.now2).toNat, .write [0x63]] := by
  simp only [inner_main] at h
  split at h
  · exact absurd h (by simp)
  · split at h
    · split at h
      · exact absurd h (by simp)
      · rename_i next_sync_time _dist
        split at h
        · split at h
          · exact absurd h (by simp)
          · rename_i hnonneg
            split at h
            · rename_i e heq
              rw [duration_to_std, if_neg hnonneg] at heq
              exact absurd heq (by simp)
            · rename_i d heq
              rw [duration_to_std, if_neg hnonneg] at heq
              split at h
              · simp only [Prod.mk.injEq, Except.ok.injEq, List.cons.injEq] at h ⊢
                obtain ⟨h1, h2⟩ := h
                subst h1
                simp only [Except.ok.injEq] at heq
                subst heq
                exact h2.symm
              · exact absurd h (by simp)
        · exact absurd h (by simp)
    · exact absurd h (by simp)

/-- C6 witness: a fully successful run produces the frame write, the
sleep, and the commit write, in that order. -/
theorem c6_trace_shape_witness :
    ([.write (construct_data_buf (hourOf 1000000) (minuteOf 1000000) (secondOf 1000000)),
      .sleep 1000000, .write [0x63]] : List Event) =
      [.write (construct_data_buf (hourOf 1000000) (minuteOf 1000000) (secondOf 1000000)),
       .sleep 1000000, .write [0x63]] :=
  c6_trace_shape ⟨[("USB-SERIAL CH340 (COM3)")], true, 0, fun _ => true, true, 0, true⟩
    1000000
    [.write (construct_data_buf (hourOf 1000000) (minuteOf 1000000) (secondOf 1000000)),
     .sleep 1000000, .write [0x63]]
    (by
      have hl : syncLoop (fun _ => true) 0 0 = some (1000000, 1000000) := by
        have h := syncLoop_spec (fun _ => true) (fun _ => rfl) 0
        norm_num at h
        exact h
      simp only [inner_main, hl]
      rfl)

/-- C8: device resolution fails with the not-found error exactly when no
caption matches the port pattern; when one or more captions match, it
succeeds with the identifier extracted from the first match, and multiple
matches are not an error. -/
theorem c8_device_resolution (captions : List String) :
    (get_serial captions = .error .deviceNotFound ↔
      captions.filterMap extract_port = []) ∧
    ∀ p rest, captions.filterMap extract_port = p :: rest →
      get_serial captions = .ok p := by
  constructor
  · constructor
    · intro h
      unfold get_serial at h
      split at h
      · assumption
      · exact absurd h (by simp)
    · intro h
      simp only [get_serial, h]
  · intro p rest h
    simp only [get_serial, h]

/-- C8 witness: with one non-matching caption and two matching ones, the
resolver returns the port of the first match and does not fail. -/
theorem c8_device_resolution_witness :
    get_serial [("nope"), ("USB-SERIAL CH340 (COM7)"), ("USB-SERIAL CH340 (COM9)")]
      = .ok ("COM7") :=
  (c8_device_resolution
      [("nope"), ("USB-SERIAL CH340 (COM7)"), ("USB-SERIAL CH340 (COM9)")]).2
    ("COM7") [("COM9")] (by rfl)

/-- C9: when the local-time construction rejects the candidate during
second-boundary truncation inside the selection loop, the run surfaces the
clock-conversion failure as its error outcome (nothing is written and the
failure is not ignored). -/
theorem c9_clock_conversion_surfaced (env : Env) (port : String)
    (hs : get_serial env.captions = .ok port) (ho : env.openOk = true)
    (hl : syncLoop env.clkOk env.now env.now = none) :
    inner_main env = (.error .clockConversionFailed, []) := by
  simp only [inner_main, hs, ho, hl, if_true]

/-- C9 witness: with a clock whose local-time construction always fails,
the run reports the clock-conversion failure and writes nothing. -/
theorem c9_clock_conversion_surfaced_witness :
    inner_main ⟨[("USB-SERIAL CH340 (COM3)")], true, 0, fun _ => false, true, 0, true⟩ =
      (.error .clockConversionFailed, []) :=
  c9_clock_conversion_surfaced
    ⟨[("USB-SERIAL CH340 (COM3)")], true, 0, fun _ => false, true, 0, true⟩
    ("COM3") rfl rfl
    (by
      rw [syncLoop]
      rfl)

end MyTimeSync
